import Mathlib

/-!
Shallow embedding of the webhook-delivery-service repository (Go + Redis):
the exponential backoff policy (`internal/backoff`), the task queue
(`internal/queue/queue.go`), the failure handler and retry scheduler
(`internal/worker/processor.go`), the retry poller and consumer loop
(`cmd/worker/main.go`), the fixed-window rate limiter
(`internal/ratelimit/limiter.go`) and the HTTP submission handler
(`cmd/api/main.go`).  Durations and timestamps are integers (nanoseconds
unless noted otherwise); Go's `int64` overflow behaviour is made explicit.
-/

namespace Webhook

/-- Smallest value of Go's `int64` / `time.Duration`. -/
def int64Min : ℤ := -(2 ^ 63)

/-- Largest value of Go's `int64` / `time.Duration`. -/
def int64Max : ℤ := 2 ^ 63 - 1

/-- Model of Go's non-constant `float64` → `int64` conversion as it appears in
`time.Duration(float64(s.Base) * multiplier)`.  An in-range value converts
exactly.  For an out-of-range value the Go specification makes the result
implementation-dependent; the gc compiler on amd64/arm64 produces
`math.MinInt64`, which this model follows. -/
def f64ToInt64 (x : ℤ) : ℤ :=
  if int64Min ≤ x ∧ x ≤ int64Max then x else int64Min

/-- Model of `backoff.ExponentialStrategy` (src/unnamed/part_000).  `Base` and
`Max` are `time.Duration` values in nanoseconds.  `Factor` is kept as an
integer: the worker configures `Factor = 2.0`, for which every
`math.Pow(Factor, k)` and the product `float64(Base) * multiplier` are exact
in `float64` until the `int64` conversion overflows, so integer arithmetic
reproduces the floating-point computation exactly. -/
structure ExponentialStrategy where
  Base : ℤ
  Factor : ℤ
  Max : ℤ
deriving DecidableEq, Repr

/-- Model of `ExponentialStrategy.GetNextInterval`:
`multiplier := math.Pow(Factor, retryCount)`,
`interval := time.Duration(float64(Base) * multiplier)`, then
`if interval > Max { return Max }; return interval`.  The clamp happens only
AFTER the `float64` → `int64` conversion.  `retryCount` is a Go `int`; only
non-negative counts occur in the program (tasks enter with 0 and the count
only increments), so it is modelled as `ℕ`. -/
def GetNextInterval (s : ExponentialStrategy) (retryCount : ℕ) : ℤ :=
  let interval := f64ToInt64 (s.Base * s.Factor ^ retryCount)
  if s.Max < interval then s.Max else interval

/-- The strategy the worker constructs in `cmd/worker/main.go`:
`backoff.NewExponentialStrategy(1*time.Second, 2.0, 1*time.Hour)`,
i.e. Base = 10^9 ns, Factor = 2, Max = 3.6·10^12 ns. -/
def shippedBackoff : ExponentialStrategy :=
  { Base := 1000000000, Factor := 2, Max := 3600000000000 }

/-- Model of `queue.Task` (src/internal/queue/queue.go): payload string,
retry count and creation time.  `RetryCount` is a Go `int`; only
non-negative values occur (tasks are created with 0 and the count only
increments), so it is modelled as `ℕ`.  `CreatedAt` is the creation
timestamp as an integer; `0` stands for Go's zero `time.Time`. -/
structure Task where
  Payload : String
  RetryCount : ℕ
  CreatedAt : ℤ
deriving DecidableEq, Repr

/-- JSON values as produced and consumed by `encoding/json` for `queue.Task`:
strings, integers and objects suffice for this data model. -/
inductive Json where
  | str : String → Json
  | num : ℤ → Json
  | obj : List (String × Json) → Json
deriving Repr

mutual

/-- Boolean value equality on JSON documents (Redis compares sorted-set
members by value). -/
def Json.beq : Json → Json → Bool
  | Json.str a, Json.str b => a == b
  | Json.num a, Json.num b => a == b
  | Json.obj a, Json.obj b => Json.beqFields a b
  | _, _ => false

/-- Boolean equality on JSON object field lists. -/
def Json.beqFields : List (String × Json) → List (String × Json) → Bool
  | [], [] => true
  | (k1, v1) :: t1, (k2, v2) :: t2 =>
      k1 == k2 && Json.beq v1 v2 && Json.beqFields t1 t2
  | _, _ => false

end

/-- Field lookup in a marshalled object, as `encoding/json` matches struct
tags against object keys. -/
def jsonLookup (fields : List (String × Json)) (key : String) : Option Json :=
  (fields.find? (fun p => p.1 == key)).map (fun p => p.2)

/-- Model of `json.Marshal` on `queue.Task` with its struct tags
`payload`, `retry_count`, `created_at`.  Go marshals `CreatedAt` as an
RFC3339 string, an injective encoding of the timestamp; the model uses the
integer timestamp itself (also injective).  No claim inspects `created_at`. -/
def marshalTask (t : Task) : Json :=
  Json.obj
    [("payload", Json.str t.Payload),
     ("retry_count", Json.num (t.RetryCount : ℤ)),
     ("created_at", Json.num t.CreatedAt)]

/-- Decoder for a string-typed struct field: an absent key leaves the Go zero
value `""`; a present key of the wrong JSON type is an unmarshal error. -/
def decodeStr : Option Json → Option String
  | none => some ""
  | some (Json.str s) => some s
  | some _ => none

/-- Decoder for an integer-typed struct field: an absent key leaves the Go
zero value `0`; a present key of the wrong JSON type is an unmarshal error. -/
def decodeInt : Option Json → Option ℤ
  | none => some 0
  | some (Json.num n) => some n
  | some _ => none

/-- Model of `json.Unmarshal` into `queue.Task`.  A non-object document is an
error; otherwise each field is decoded by struct tag.  A negative
`retry_count` cannot arise from marshalling a task (the model's count is a
`ℕ`), so it is mapped to an error. -/
def unmarshalTask : Json → Option Task
  | Json.obj fields => do
      let p ← decodeStr (jsonLookup fields "payload")
      let r ← decodeInt (jsonLookup fields "retry_count")
      let c ← decodeInt (jsonLookup fields "created_at")
      if 0 ≤ r then pure ⟨p, r.toNat, c⟩ else none
  | _ => none

/-- Model of `RedisQueue.Enqueue` (src/internal/queue/queue.go): set
`CreatedAt` to the current time if it is the zero value, `json.Marshal` the
task, `LPush` the document onto the head of the `webhook_queue` list.  The
list state has its head at the `LPush` end; marshalling a `Task` cannot
fail, so the error return is always nil. -/
def Enqueue (now : ℤ) (t : Task) (l : List Json) : List Json :=
  let t := if t.CreatedAt = 0 then { t with CreatedAt := now } else t
  marshalTask t :: l

/-- Outcome of one `BRPop` call as the go-redis / Redis contract specifies:
a cancelled context yields the context error; otherwise a non-empty list
yields the tail element; otherwise a positive timeout elapses and yields
`redis.Nil`; with timeout `0` the call blocks until a value arrives and, in
a quiescent state, never returns. -/
inductive BRPopResult where
  | popped : Json → List Json → BRPopResult
  | nilTimeout : BRPopResult
  | canceled : BRPopResult
  | blocksForever : BRPopResult

/-- Model of `rdb.BRPop(ctx, timeout, "webhook_queue")` on the current list
state, for a context that is cancelled or not. -/
def BRPop (timeoutSeconds : ℕ) (ctxCanceled : Bool) (l : List Json) : BRPopResult :=
  if ctxCanceled then BRPopResult.canceled
  else
    match l.getLast? with
    | some v => BRPopResult.popped v l.dropLast
    | none => if timeoutSeconds = 0 then BRPopResult.blocksForever else BRPopResult.nilTimeout

/-- Result of `RedisQueue.Dequeue`: a task together with the remaining list,
an unmarshal error, the distinguished `redis.Nil` "no task" error, the
distinguished context-cancellation error, or no return at all. -/
inductive DequeueOutcome where
  | task : Task → List Json → DequeueOutcome
  | parseError : DequeueOutcome
  | errNil : DequeueOutcome
  | errCanceled : DequeueOutcome
  | neverReturns : DequeueOutcome

/-- Model of `RedisQueue.Dequeue` (src/internal/queue/queue.go): it calls
`BRPop(ctx, 0, "webhook_queue")` — timeout literally `0`, i.e. block
indefinitely — then `json.Unmarshal`s the popped element. -/
def RedisQueue.Dequeue (ctxCanceled : Bool) (l : List Json) : DequeueOutcome :=
  match BRPop 0 ctxCanceled l with
  | BRPopResult.popped v rest =>
      match unmarshalTask v with
      | some t => DequeueOutcome.task t rest
      | none => DequeueOutcome.parseError
  | BRPopResult.canceled => DequeueOutcome.errCanceled
  | BRPopResult.nilTimeout => DequeueOutcome.errNil
  | BRPopResult.blocksForever => DequeueOutcome.neverReturns

/-- Outcome of `Processor.handleFailure` (src/internal/worker/processor.go)
on one failed delivery: either the task is dropped terminally, or a copy
with the incremented retry count is scheduled with the computed backoff
delay (via `scheduleRetry`, which `ZAdd`s it into `retry_schedule`). -/
inductive FailureOutcome where
  | dropped : FailureOutcome
  | scheduled : Task → ℤ → FailureOutcome
deriving DecidableEq, Repr

/-- Model of `Processor.handleFailure`: `if task.RetryCount >= 5` drop the
task and return; otherwise compute
`waitDuration := backoff.GetNextInterval(task.RetryCount)` from the
PRE-increment count, then `task.RetryCount++` and schedule the retry with
that delay. -/
def handleFailure (b : ExponentialStrategy) (t : Task) : FailureOutcome :=
  if 5 ≤ t.RetryCount then FailureOutcome.dropped
  else
    FailureOutcome.scheduled
      { t with RetryCount := t.RetryCount + 1 }
      (GetNextInterval b t.RetryCount)

/-- State of a task after `n` consecutive failed delivery attempts, each
routed through `handleFailure`: `some u` when the task is still live
(scheduled for another retry, later re-enqueued by the poller), `none` once
it has been dropped terminally. -/
def afterFailures (b : ExponentialStrategy) (t : Task) : ℕ → Option Task
  | 0 => some t
  | n + 1 =>
      match afterFailures b t n with
      | none => none
      | some u =>
          match handleFailure b u with
          | FailureOutcome.dropped => none
          | FailureOutcome.scheduled u' _ => some u'

/-- Model of `FixedWindowLimiter` (src/internal/ratelimit/limiter.go):
`limit` requests per `window` (nanoseconds). -/
structure FixedWindowLimiter where
  limit : ℕ
  window : ℤ
deriving DecidableEq, Repr

/-- Model of `FixedWindowLimiter.Allow` acting on the identity's current
counter value (`0` when the key `rate_limit:<userID>` is absent; keys of
distinct identities are independent):  `count := INCR key`; `if count == 1`
call `Expire(key, window)`; return `false` iff `count > limit`.  The result
is `(allowed, post-increment count, whether Expire was called)`. -/
def Allow (l : FixedWindowLimiter) (count : ℕ) : Bool × ℕ × Bool :=
  let count' := count + 1
  ((if l.limit < count' then false else true), count', decide (count' = 1))

/-- Counter value after `n` requests from one identity within one window,
starting from an absent key, each routed through `Allow`. -/
def iterAllow (l : FixedWindowLimiter) : ℕ → ℕ
  | 0 => 0
  | n + 1 => (Allow l (iterAllow l n)).2.1

/-- Redis state touched by the retry poller: the `retry_schedule` sorted set
as a list of (score, member) pairs and the `webhook_queue` list. -/
structure SchedState where
  retrySchedule : List (ℤ × Json)
  mainQueue : List Json

/-- Model of the per-member body of the promotion loop in `startRetryPoller`
(src/unnamed/part_001, lines 138-150): `json.Unmarshal` the member with the
error discarded (`_ =`), so a failed parse leaves the zero-value task, which
is still enqueued; `q.Enqueue` with the error return DISCARDED
(`enqueueFails` says whether that call failed); then unconditionally
`rdb.ZRem(ctx, "retry_schedule", member)`. -/
def promoteMember (now : ℤ) (enqueueFails : Bool) (member : Json) (st : SchedState) : SchedState :=
  let task := (unmarshalTask member).getD ⟨"", 0, 0⟩
  { retrySchedule := st.retrySchedule.filter (fun e => !(Json.beq e.2 member)),
    mainQueue := if enqueueFails then st.mainQueue else Enqueue now task st.mainQueue }

/-- Truncation of a clock reading in milliseconds to Unix seconds, as
`time.Time.Unix()` does. -/
def unixSeconds (tMs : ℕ) : ℕ := tMs / 1000

/-- Model of the score computation in `Processor.scheduleRetry`
(src/internal/worker/processor.go):
`executeAt := time.Now().Add(delay).Unix()` — the instant `now + delay`
truncated to whole Unix seconds.  Clock readings and delays are in
milliseconds so that the sub-second truncation is visible. -/
def scheduleRetryExecuteAt (nowMs delayMs : ℕ) : ℕ :=
  unixSeconds (nowMs + delayMs)

/-- Model of the due check of one `startRetryPoller` tick at clock reading
`tickMs`: `ZRangeByScore` with `Min = -inf`, `Max = float64(time.Now().Unix())`
selects a member iff its score is ≤ the tick's Unix-second timestamp. -/
def isDue (executeAt : ℕ) (tickMs : ℕ) : Bool :=
  decide (executeAt ≤ unixSeconds tickMs)

/-- Request DTO of the HTTP entry point (src/cmd/api/main.go): `user_id` and
the raw bytes of the `data` field (`json.RawMessage`, stored as a string). -/
structure WebhookRequest where
  UserID : String
  Data : String
deriving DecidableEq, Repr

/-- Result of one call to the `POST /send` handler. -/
inductive SubmitResult where
  | methodNotAllowed : SubmitResult
  | badJson : SubmitResult
  | missingUserID : SubmitResult
  | internalErr : SubmitResult
  | rateLimited : SubmitResult
  | accepted : Task → SubmitResult
deriving DecidableEq, Repr

/-- Model of the `/send` handler in `cmd/api/main.go`: reject non-POST
methods, reject bodies that fail to decode (`body = none`), reject an empty
`user_id`, consult the rate limiter (`allowRes`: `none` = limiter error →
500, `some false` → 429, `some true` → proceed), then enqueue
`queue.Task{Payload: string(req.Data), RetryCount: 0}` (with zero-value
`CreatedAt`). -/
def sendHandler (methodPost : Bool) (body : Option WebhookRequest)
    (allowRes : Option Bool) : SubmitResult :=
  if !methodPost then SubmitResult.methodNotAllowed
  else
    match body with
    | none => SubmitResult.badJson
    | some req =>
        if req.UserID = "" then SubmitResult.missingUserID
        else
          match allowRes with
          | none => SubmitResult.internalErr
          | some false => SubmitResult.rateLimited
          | some true => SubmitResult.accepted ⟨req.Data, 0, 0⟩

/-! Helper lemmas. -/

/-- Marshalling a task and unmarshalling the document restores the task. -/
theorem unmarshal_marshalTask (t : Task) : unmarshalTask (marshalTask t) = some t := by
  cases t with
  | mk p r c =>
      simp [marshalTask, unmarshalTask, jsonLookup, decodeStr, decodeInt, List.find?]

/-- A fresh task that keeps failing is still live after up to five failures:
the n-th failure (n ≤ 5) schedules a retry with retry count n. -/
theorem afterFailures_upto (b : ExponentialStrategy) (p : String) (c : ℤ) :
    ∀ n, n ≤ 5 → afterFailures b ⟨p, 0, c⟩ n = some ⟨p, n, c⟩ := by
  intro n
  induction n with
  | zero => intro _; rfl
  | succ k ih =>
      intro hk
      have hklt : k < 5 := Nat.lt_of_succ_le hk
      simp [afterFailures, ih (Nat.le_of_lt hklt), handleFailure, Nat.not_le.mpr hklt]

/-- Once a task has been dropped it stays dropped: `afterFailures` is
`none`-monotone in the number of failures. -/
theorem afterFailures_none_mono (b : ExponentialStrategy) (t : Task) :
    ∀ {m n : ℕ}, m ≤ n → afterFailures b t m = none → afterFailures b t n = none := by
  intro m n hmn h
  induction n with
  | zero =>
      have hm : m = 0 := Nat.le_zero.mp hmn
      exact hm ▸ h
  | succ k ih =>
      by_cases hmk : m ≤ k
      · simp [afterFailures, ih hmk]
      · have hm : m = k + 1 := Nat.le_antisymm hmn (Nat.not_le.mp hmk)
        exact hm ▸ h

/-! Claim theorems. -/

/-- C1, counterexample: a fresh task whose delivery fails five times
consecutively IS re-enqueued after the last of those failures — the fifth
failure still sees `RetryCount = 4 < 5`, so `handleFailure` schedules a
sixth delivery attempt (retry count 5, backoff delay 16 s) instead of
dropping the task. -/
theorem fifthFailureStillScheduled :
    afterFailures shippedBackoff ⟨"p", 0, 0⟩ 4 = some ⟨"p", 4, 0⟩
    ∧ handleFailure shippedBackoff ⟨"p", 4, 0⟩
        = FailureOutcome.scheduled ⟨"p", 5, 0⟩ 16000000000 := by
  constructor <;> decide

/-- C1, amended: the failure branch drops a task exactly when its
pre-increment retry count has reached 5 (`max_attempts`) and schedules a
retry exactly when it is below 5; consequently a fresh task is dropped
terminally only at its sixth consecutive failure, after which it is never
re-enqueued (neither onto the broker nor into the retry schedule). -/
theorem handleFailure_branch_spec (b : ExponentialStrategy) (t : Task)
    (p : String) (c : ℤ) (n : ℕ) :
    (handleFailure b t = FailureOutcome.dropped ↔ 5 ≤ t.RetryCount)
    ∧ (t.RetryCount < 5 →
        handleFailure b t
          = FailureOutcome.scheduled { t with RetryCount := t.RetryCount + 1 }
              (GetNextInterval b t.RetryCount))
    ∧ (6 ≤ n → afterFailures b ⟨p, 0, c⟩ n = none) := by
  refine ⟨?_, ?_, ?_⟩
  · by_cases h5 : 5 ≤ t.RetryCount <;> simp [handleFailure, h5]
  · intro hlt
    simp [handleFailure, Nat.not_le.mpr hlt]
  · intro hn
    have h6 : afterFailures b ⟨p, 0, c⟩ (5 + 1) = none := by
      simp [afterFailures, afterFailures_upto b p c 5 (Nat.le_refl 5), handleFailure]
    exact afterFailures_none_mono b ⟨p, 0, c⟩ hn h6

/-- C1, witness: after six consecutive failures a fresh task has been
dropped terminally. -/
theorem handleFailure_branch_spec_witness :
    afterFailures shippedBackoff ⟨"p", 0, 0⟩ 6 = none :=
  (handleFailure_branch_spec shippedBackoff ⟨"p", 0, 0⟩ "p" 0 6).2.2 (by omega)

/-- C2: with the shipped configuration (base = 1 s, factor = 2.0,
max = 1 h), `GetNextInterval` saturates at `Max` up to attempt count 33, but
at attempt count 34 the product `float64(Base) * 2^34` exceeds the `int64`
range, the conversion performed BEFORE the clamp yields `math.MinInt64`
(gc compiler, amd64/arm64), and the function returns a negative duration —
outside `[0, max_interval]` and smaller than the value at 33, so the
function is neither bounded below by 0 nor non-decreasing, and it does not
saturate on overflow. -/
theorem getNextInterval_overflow :
    GetNextInterval shippedBackoff 33 = shippedBackoff.Max
    ∧ GetNextInterval shippedBackoff 34 = int64Min
    ∧ GetNextInterval shippedBackoff 34 < 0 := by
  refine ⟨by decide, by decide, by decide⟩

/-- C9: with base = 1 s, factor = 2.0, max = 1 h the backoff yields 1 s, 2 s
and 4 s for attempt counts 0, 1 and 2 (durations in nanoseconds), and on
every non-terminal failure the worker computes the retry delay from the
retry count held BEFORE incrementing it for that failure, scheduling the
task with the incremented count. -/
theorem backoffConcreteScenario :
    GetNextInterval shippedBackoff 0 = 1000000000
    ∧ GetNextInterval shippedBackoff 1 = 2000000000
    ∧ GetNextInterval shippedBackoff 2 = 4000000000
    ∧ ∀ t : Task, t.RetryCount < 5 →
        handleFailure shippedBackoff t
          = FailureOutcome.scheduled { t with RetryCount := t.RetryCount + 1 }
              (GetNextInterval shippedBackoff t.RetryCount) := by
  refine ⟨by decide, by decide, by decide, ?_⟩
  intro t hlt
  simp [handleFailure, Nat.not_le.mpr hlt]

/-- C9, witness: the first retry of a fresh task is scheduled with delay
`GetNextInterval 0` = 1 s and retry count 1. -/
theorem backoffConcreteScenario_witness :
    handleFailure shippedBackoff ⟨"x", 0, 0⟩
      = FailureOutcome.scheduled ⟨"x", 1, 0⟩ (GetNextInterval shippedBackoff 0) :=
  backoffConcreteScenario.2.2.2 ⟨"x", 0, 0⟩ (by decide)

/-- C3: `RedisQueue.Dequeue` passes timeout `0` to `BRPop`, so on an empty
queue with no cancellation the call blocks indefinitely and never yields the
distinguished `redis.Nil` "no task, try again" result — the worker's
heartbeat branch is unreachable, contradicting the claim and the code's own
comment that the queue was updated to wait at most one second.  The
cancellation half does hold: a cancelled context yields the distinguished
cancellation error. -/
theorem dequeueBlocksOnEmpty :
    RedisQueue.Dequeue false [] = DequeueOutcome.neverReturns
    ∧ RedisQueue.Dequeue false [] ≠ DequeueOutcome.errNil
    ∧ ∀ l : List Json, RedisQueue.Dequeue true l = DequeueOutcome.errCanceled := by
  refine ⟨rfl, ?_, fun l => rfl⟩
  intro h
  rw [show RedisQueue.Dequeue false ([] : List Json) = DequeueOutcome.neverReturns from rfl] at h
  exact DequeueOutcome.noConfusion h

/-- C4: when the poller's `q.Enqueue` call fails for a due entry (the error
return is discarded by the source), the entry is nonetheless `ZRem`-ed from
`retry_schedule` while the main queue is left unchanged: the task is lost
instead of being kept for the next tick.  Here the schedule holds one due
entry, the enqueue fails, and the resulting state is empty on both sides. -/
theorem pollerRemovesEntryOnEnqueueError :
    promoteMember 0 true (marshalTask ⟨"job", 3, 7⟩)
        ⟨[(11, marshalTask ⟨"job", 3, 7⟩)], []⟩
      = ⟨[], []⟩ := by
  rfl

/-- C5: `Allow` increments the identity's counter, denies exactly when the
post-increment count exceeds the limit, allows otherwise, and calls `Expire`
exactly when the increment created the counter (count became 1); iterating
from an absent key, the Nth request of a window is allowed iff N ≤ limit. -/
theorem allowSpec (l : FixedWindowLimiter) (count : ℕ) :
    (Allow l count).2.1 = count + 1
    ∧ ((Allow l count).1 = false ↔ l.limit < count + 1)
    ∧ ((Allow l count).1 = true ↔ count + 1 ≤ l.limit)
    ∧ ((Allow l count).2.2 = true ↔ count + 1 = 1)
    ∧ (∀ n, iterAllow l n = n)
    ∧ (∀ N, 1 ≤ N → ((Allow l (iterAllow l (N - 1))).1 = true ↔ N ≤ l.limit)) := by
  have hiter : ∀ n, iterAllow l n = n := by
    intro n
    induction n with
    | zero => rfl
    | succ k ih => simp [iterAllow, Allow, ih]
  refine ⟨rfl, ?_, ?_, ?_, hiter, ?_⟩
  · by_cases h : l.limit < count + 1 <;> simp [Allow, h]
  · by_cases h : l.limit < count + 1
    · simp [Allow, h]
    · simp [Allow, h]
      omega
  · simp [Allow]
  · intro N hN
    have h1 : (N - 1) + 1 = N := Nat.succ_pred_eq_of_pos hN
    rw [hiter (N - 1)]
    by_cases h : l.limit < N
    · simp [Allow, h1, h]
    · simp [Allow, h1, h]
      omega

/-- C5, witness: with limit 5, the sixth request of a window (counter at 5)
is denied. -/
theorem allowSpec_witness :
    ((Allow ⟨5, 60000000000⟩ (iterAllow ⟨5, 60000000000⟩ (6 - 1))).1 = true ↔ 6 ≤ 5) :=
  (allowSpec ⟨5, 60000000000⟩ 0).2.2.2.2.2 6 (by decide)

/-- C6: enqueueing a task (serialize, `LPush`) and dequeueing it (`BRPop`,
deserialize) yields a task whose payload and retry count equal the
originals exactly (`Enqueue` may set `CreatedAt` if it was the zero value;
the claim's fields are untouched). -/
theorem enqueueDequeueRoundtrip (now : ℤ) (t : Task) :
    ∃ t' : Task,
      RedisQueue.Dequeue false (Enqueue now t []) = DequeueOutcome.task t' []
      ∧ t'.Payload = t.Payload ∧ t'.RetryCount = t.RetryCount := by
  refine ⟨if t.CreatedAt = 0 then { t with CreatedAt := now } else t, ?_, ?_, ?_⟩
  · have hq : Enqueue now t []
        = [marshalTask (if t.CreatedAt = 0 then { t with CreatedAt := now } else t)] := by
      simp [Enqueue]
    rw [hq]
    simp [RedisQueue.Dequeue, BRPop, unmarshal_marshalTask]
  · by_cases h : t.CreatedAt = 0 <;> simp [h]
  · by_cases h : t.CreatedAt = 0 <;> simp [h]

/-- C7, counterexample: `execute_at` truncates `now + d` to whole Unix
seconds, so an entry can be promoted strictly before `now + d`: scheduled at
clock 10.9 s with delay 1 s, `execute_at` is second 11 and the poll tick at
clock 11.0 s — 0.9 s before `now + d` = 11.9 s — already finds it due. -/
theorem retryPromotedBeforeDeadline :
    scheduleRetryExecuteAt 10900 1000 = 11
    ∧ isDue (scheduleRetryExecuteAt 10900 1000) 11000 = true
    ∧ 11000 < 10900 + 1000 := by
  refine ⟨rfl, rfl, by decide⟩

/-- C7, amended: `execute_at` is `now + d` truncated to whole Unix seconds;
a tick promotes the entry only if it is less than one second before
`now + d` (so promotion can precede `now + d` by up to the truncated
sub-second part, but no more), a tick a full second or more early never
promotes it, every tick at or after `now + d` finds it due, and with
1-second ticks starting at or before `now + d` some promoting tick occurs
within one tick interval after `now + d`. -/
theorem retryPromotionWindow (nowMs delayMs tickMs t0 : ℕ) :
    scheduleRetryExecuteAt nowMs delayMs = (nowMs + delayMs) / 1000
    ∧ (isDue (scheduleRetryExecuteAt nowMs delayMs) tickMs = true →
        nowMs + delayMs < tickMs + 1000)
    ∧ (tickMs + 1000 ≤ nowMs + delayMs →
        isDue (scheduleRetryExecuteAt nowMs delayMs) tickMs = false)
    ∧ (nowMs + delayMs ≤ tickMs →
        isDue (scheduleRetryExecuteAt nowMs delayMs) tickMs = true)
    ∧ (t0 ≤ nowMs + delayMs →
        ∃ k, nowMs + delayMs ≤ t0 + 1000 * k
          ∧ t0 + 1000 * k < nowMs + delayMs + 1000
          ∧ isDue (scheduleRetryExecuteAt nowMs delayMs) (t0 + 1000 * k) = true) := by
  refine ⟨rfl, ?_, ?_, ?_, ?_⟩
  · intro h
    simp [isDue, unixSeconds, scheduleRetryExecuteAt] at h
    omega
  · intro h
    simp [isDue, unixSeconds, scheduleRetryExecuteAt]
    omega
  · intro h
    simp [isDue, unixSeconds, scheduleRetryExecuteAt]
    omega
  · intro h
    refine ⟨(nowMs + delayMs - t0 + 999) / 1000, ?_, ?_, ?_⟩
    · omega
    · omega
    · simp [isDue, unixSeconds, scheduleRetryExecuteAt]
      omega

/-- C7, witness: the entry scheduled at clock 10.9 s with delay 1 s is due
at the tick at clock 12.0 s, which lies within one tick interval after
`now + d` = 11.9 s. -/
theorem retryPromotionWindow_witness :
    isDue (scheduleRetryExecuteAt 10900 1000) 12000 = true :=
  (retryPromotionWindow 10900 1000 12000 0).2.2.2.1 (by decide)

/-- C8: tasks enqueued on one broker instance and never retried come back in
FIFO order — with two tasks pushed in order onto the empty queue, the first
dequeue returns the first task's payload and retry count and the second
dequeue returns the second's. -/
theorem fifoOrder (now1 now2 : ℤ) (t1 t2 : Task) :
    ∃ u1 u2 : Task, ∃ rest : List Json,
      RedisQueue.Dequeue false (Enqueue now2 t2 (Enqueue now1 t1 []))
        = DequeueOutcome.task u1 rest
      ∧ u1.Payload = t1.Payload ∧ u1.RetryCount = t1.RetryCount
      ∧ RedisQueue.Dequeue false rest = DequeueOutcome.task u2 []
      ∧ u2.Payload = t2.Payload ∧ u2.RetryCount = t2.RetryCount := by
  refine ⟨if t1.CreatedAt = 0 then { t1 with CreatedAt := now1 } else t1,
          if t2.CreatedAt = 0 then { t2 with CreatedAt := now2 } else t2,
          [marshalTask (if t2.CreatedAt = 0 then { t2 with CreatedAt := now2 } else t2)],
          ?_, ?_, ?_, ?_, ?_, ?_⟩
  · have hq : Enqueue now2 t2 (Enqueue now1 t1 [])
        = [marshalTask (if t2.CreatedAt = 0 then { t2 with CreatedAt := now2 } else t2),
           marshalTask (if t1.CreatedAt = 0 then { t1 with CreatedAt := now1 } else t1)] := by
      simp [Enqueue]
    rw [hq]
    simp [RedisQueue.Dequeue, BRPop, unmarshal_marshalTask]
  · by_cases h : t1.CreatedAt = 0 <;> simp [h]
  · by_cases h : t1.CreatedAt = 0 <;> simp [h]
  · simp [RedisQueue.Dequeue, BRPop, unmarshal_marshalTask]
  · by_cases h : t2.CreatedAt = 0 <;> simp [h]
  · by_cases h : t2.CreatedAt = 0 <;> simp [h]

/-- C10: every submission the `/send` handler accepts enqueues a task whose
retry count is 0 and whose payload is exactly the submitted request's raw
`data` bytes (with zero-value `CreatedAt`, later stamped by `Enqueue`). -/
theorem acceptedTaskFresh (m : Bool) (b : Option WebhookRequest)
    (a : Option Bool) (t : Task) :
    sendHandler m b a = SubmitResult.accepted t →
    t.RetryCount = 0 ∧ t.CreatedAt = 0
    ∧ ∃ req, b = some req ∧ t.Payload = req.Data := by
  intro h
  cases m with
  | false => simp [sendHandler] at h
  | true =>
      rcases b with _ | req
      · simp [sendHandler] at h
      · by_cases hu : req.UserID = ""
        · simp [sendHandler, hu] at h
        · rcases a with _ | flag
          · simp [sendHandler, hu] at h
          · cases flag with
            | false => simp [sendHandler, hu] at h
            | true =>
                simp [sendHandler, hu] at h
                exact ⟨h ▸ rfl, h ▸ rfl, req, rfl, h ▸ rfl⟩

/-- C10, witness: a POST with user "u1" and data "d" admitted by the rate
limiter enqueues the task with payload "d" and retry count 0. -/
theorem acceptedTaskFresh_witness :
    (Task.mk "d" 0 0).RetryCount = 0 ∧ (Task.mk "d" 0 0).CreatedAt = 0
    ∧ ∃ req, some (WebhookRequest.mk "u1" "d") = some req
        ∧ (Task.mk "d" 0 0).Payload = req.Data :=
  acceptedTaskFresh true (some ⟨"u1", "d"⟩) (some true) ⟨"d", 0, 0⟩ (by rfl)

end Webhook
